import Mathlib

/-!
Verification development for the Fable Book Explorer (`src/app.py`).

The file shallowly embeds the normalization-and-coloring core of the
application: the deterministic genre-color assigner (`color_from_genre`),
the paginated fetch loop (`fetch_all_books`), the per-record normalization
into `BookRow`s, and the filter/sort pipeline applied to the resulting
table.  Machine integers are modelled as `Nat` with explicit reduction
modulo `2 ^ 32` where the Python code relies on 32-bit wraparound
(inside the Mersenne Twister), strings as lists of Unicode code points
where character-level reasoning is needed, and fallible code as `Except`
or `Option`.
-/

/-! ## 32-bit helpers -/

/-- Reduce modulo `2 ^ 32`: the wraparound applied by CPython's Mersenne
Twister, which works on `uint32_t`. -/
def w32 (n : Nat) : Nat := n % 4294967296

/-- Rotate a 32-bit word left by `k` (for `k ≤ 32`, on `n < 2 ^ 32`). -/
def rotl32 (n k : Nat) : Nat := w32 (n <<< k) ||| (n >>> (32 - k))

/-! ## SHA-1 (models CPython `hashlib.sha1(...).hexdigest()` read back with
`int(_, 16)`, i.e. the 160-bit digest as a big-endian natural number). -/

/-- SHA-1 message padding: `0x80`, zeros to 56 mod 64, then the bit length
as 8 big-endian bytes. -/
def sha1pad (msg : List Nat) : List Nat :=
  let len := msg.length
  let z := (120 - ((len + 1) % 64)) % 64
  msg ++ [0x80] ++ List.replicate z 0 ++
    (List.range 8).map (fun i => ((8 * len) >>> (8 * (7 - i))) % 256)

/-- Group bytes into big-endian 32-bit words. -/
def bytesToWords : List Nat → List Nat
  | a :: b :: c :: d :: rest =>
      (a * 16777216 + b * 65536 + c * 256 + d) :: bytesToWords rest
  | _ => []

/-- Split a byte list into 64-byte blocks. -/
def chunks64 : List Nat → List (List Nat)
  | [] => []
  | a :: rest => ((a :: rest).take 64) :: chunks64 ((a :: rest).drop 64)
termination_by l => l.length
decreasing_by simp [List.length_drop]; omega

/-- Extend the 16 message words of a block to the 80-word schedule. -/
def sha1schedule (ws : Array Nat) : Array Nat :=
  (List.range 64).foldl
    (fun w i =>
      w.push (rotl32 ((w.getD (i + 13) 0) ^^^ (w.getD (i + 8) 0) ^^^
                      (w.getD (i + 2) 0) ^^^ (w.getD i 0)) 1))
    ws

/-- SHA-1 round function. -/
def sha1f (t b c d : Nat) : Nat :=
  if t < 20 then (b &&& c) ||| ((b ^^^ 4294967295) &&& d)
  else if t < 40 then b ^^^ c ^^^ d
  else if t < 60 then (b &&& c) ||| (b &&& d) ||| (c &&& d)
  else b ^^^ c ^^^ d

/-- SHA-1 round constants. -/
def sha1k (t : Nat) : Nat :=
  if t < 20 then 0x5A827999
  else if t < 40 then 0x6ED9EBA1
  else if t < 60 then 0x8F1BBCDC
  else 0xCA62C1D6

/-- Compress one 64-byte block into the running state. -/
def sha1compress (h : Nat × Nat × Nat × Nat × Nat) (block : List Nat) :
    Nat × Nat × Nat × Nat × Nat :=
  let ws := sha1schedule (bytesToWords block).toArray
  let (h0, h1, h2, h3, h4) := h
  let s := (List.range 80).foldl
    (fun (st : Nat × Nat × Nat × Nat × Nat) t =>
      let (a, b, c, d, e) := st
      (w32 (rotl32 a 5 + sha1f t b c d + e + sha1k t + ws.getD t 0),
       a, rotl32 b 30, c, d))
    (h0, h1, h2, h3, h4)
  (w32 (h0 + s.1), w32 (h1 + s.2.1), w32 (h2 + s.2.2.1),
   w32 (h3 + s.2.2.2.1), w32 (h4 + s.2.2.2.2))

/-- SHA-1 of a byte list, as the 160-bit digest value. -/
def sha1 (msg : List Nat) : Nat :=
  let r := (chunks64 (sha1pad msg)).foldl sha1compress
    (0x67452301, 0xEFCDAB89, 0x98BADCFE, 0x10325476, 0xC3D2E1F0)
  (((r.1 * 4294967296 + r.2.1) * 4294967296 + r.2.2.1) * 4294967296 +
      r.2.2.2.1) * 4294967296 + r.2.2.2.2

/-! ## Mersenne Twister (models CPython's `random` module: `random.seed(int)`
via `init_by_array`, and `getrandbits`/`_randbelow`/`randint`). -/

/-- Mersenne Twister state: 624 32-bit words plus the draw index. -/
structure MTState where
  mt : Array Nat
  idx : Nat
deriving Repr

/-- `init_genrand` from MT19937: fill the state array from a 32-bit seed. -/
def initGenrand (s : Nat) : Array Nat :=
  (List.range 623).foldl
    (fun arr i =>
      let prev := arr.getD i 0
      arr.push (w32 (1812433253 * (prev ^^^ (prev >>> 30)) + (i + 1))))
    #[w32 s]

/-- First mixing loop of `init_by_array`; returns the array together with
the final value of the index `i`, which the second loop continues from. -/
def ibaLoop1 (key : Array Nat) : Nat → Array Nat → Nat → Nat → Array Nat × Nat
  | 0, arr, i, _ => (arr, i)
  | k + 1, arr, i, j =>
    let prev := arr.getD (i - 1) 0
    let v := w32 ((arr.getD i 0 ^^^ w32 ((prev ^^^ (prev >>> 30)) * 1664525))
                  + key.getD j 0 + j)
    let arr := arr.set! i v
    let i := i + 1
    let j := j + 1
    let step := if i ≥ 624 then (arr.set! 0 (arr.getD 623 0), 1) else (arr, i)
    ibaLoop1 key k step.1 step.2 (if j ≥ key.size then 0 else j)

/-- Second mixing loop of `init_by_array`. -/
def ibaLoop2 : Nat → Array Nat → Nat → Array Nat
  | 0, arr, _ => arr
  | k + 1, arr, i =>
    let prev := arr.getD (i - 1) 0
    let v := w32 ((arr.getD i 0 ^^^ w32 ((prev ^^^ (prev >>> 30)) * 1566083941))
                  + 4294967296 - i)
    let arr := arr.set! i v
    let i := i + 1
    let step := if i ≥ 624 then (arr.set! 0 (arr.getD 623 0), 1) else (arr, i)
    ibaLoop2 k step.1 step.2

/-- `init_by_array` from MT19937, as called by CPython's `random.seed`. -/
def initByArray (key : List Nat) : Array Nat :=
  let keyArr := key.toArray
  let l1 := ibaLoop1 keyArr (max 624 keyArr.size) (initGenrand 19650218) 1 0
  let arr := ibaLoop2 623 l1.1 l1.2
  arr.set! 0 0x80000000

/-- CPython `random.seed(n)` for a non-negative int `n`: split `n` into
32-bit words (little-endian; `[0]` for `n = 0`), run `init_by_array`, and
set the index to 624 so the first draw regenerates the block. -/
def seedMT (n : Nat) : MTState :=
  let key := if n = 0 then [0] else Nat.digits 4294967296 n
  { mt := initByArray key, idx := 624 }

/-- Regenerate the 624-word block in place (the MT19937 "twist"). -/
def mtTwist (mt : Array Nat) : Array Nat :=
  (List.range 624).foldl
    (fun m i =>
      let y := (m.getD i 0 &&& 0x80000000) ||| (m.getD ((i + 1) % 624) 0 &&& 0x7fffffff)
      m.set! i ((m.getD ((i + 397) % 624) 0) ^^^ (y >>> 1) ^^^
                (if y % 2 = 1 then 0x9908b0df else 0)))
    mt

/-- MT19937 output tempering. -/
def mtTemper (y0 : Nat) : Nat :=
  let y1 := y0 ^^^ (y0 >>> 11)
  let y2 := y1 ^^^ (w32 (y1 <<< 7) &&& 0x9d2c5680)
  let y3 := y2 ^^^ (w32 (y2 <<< 15) &&& 0xefc60000)
  y3 ^^^ (y3 >>> 18)

/-- `genrand_uint32`: one 32-bit draw, twisting when the block is spent. -/
def genrand (st : MTState) : Nat × MTState :=
  let s := if st.idx ≥ 624 then (mtTwist st.mt, 0) else (st.mt, st.idx)
  (mtTemper (s.1.getD s.2 0), ⟨s.1, s.2 + 1⟩)

/-- `random.getrandbits(k)` for `k ≤ 32`: top `k` bits of one draw. -/
def getrandbits (k : Nat) (st : MTState) : Nat × MTState :=
  let r := genrand st
  (r.1 >>> (32 - k), r.2)

/-- `random._randbelow(n)`: draw `k = n.bit_length()` bits and reject
values `≥ n`.  The Python loop is unbounded; it is modelled with fuel
(each retry succeeds with probability ≥ 1/2, so fuel 100 is never reached
in practice; on exhaustion the model returns 0). -/
def randbelowLoop (n k : Nat) : Nat → MTState → Nat × MTState
  | 0, st => (0, st)
  | fuel + 1, st =>
    let r := getrandbits k st
    if r.1 < n then r else randbelowLoop n k fuel r.2

/-- `random.randint(0, 0xFFFFFF)`: `_randbelow(2 ^ 24)` with
`k = (2 ^ 24).bit_length() = 25`. -/
def randint24 (st : MTState) : Nat × MTState :=
  randbelowLoop 16777216 25 100 st

/-! ## color_from_genre -/

/-- Lowercase hex digit. -/
def hexDigit (n : Nat) : Char :=
  if n < 10 then Char.ofNat (48 + n) else Char.ofNat (87 + n)

/-- Six-digit lowercase hex rendering of `n < 2 ^ 24` (Python `f"{n:06x}"`). -/
def hex6 (n : Nat) : String :=
  String.mk ((List.range 6).map fun i => hexDigit ((n >>> (4 * (5 - i))) % 16))

/-- The `"#rrggbb"` color string for a 24-bit value. -/
def hexColor (n : Nat) : String := "#" ++ hex6 n

/-- UTF-8 bytes of a string (`genre.encode("utf-8")`). -/
def utf8Bytes (s : String) : List Nat := s.toUTF8.toList.map (fun b => b.toNat)

/-- `color_from_genre` from `src/app.py`.  The input is `Option String`
because Python's falsy test `if not genre` also accepts `None`; the global
`random` generator is threaded as explicit state.  A falsy input yields the
fixed gray `"#888888"`; otherwise the SHA-1 digest of the UTF-8 bytes seeds
the Mersenne Twister, which is discarded and replaced, and one 24-bit value
is drawn and formatted as `f"#{r:06x}"`. -/
def color_from_genre (genre : Option String) (st : MTState) : String × MTState :=
  match genre with
  | none => ("#888888", st)
  | some g =>
    if g = "" then ("#888888", st)
    else
      let h := sha1 (utf8Bytes g)
      let st1 := seedMT h
      let r := randint24 st1
      (hexColor r.1, r.2)

/-! ## Raw API records and normalized rows -/

/-- An entry of the `authors`/`genres` arrays: a JSON object whose `name`
key may be missing (`none` models a missing key; Python's `["name"]`
subscript raises `KeyError` on it). -/
structure PersonRef where
  name : Option String
deriving DecidableEq, Repr

/-- A raw book object as consumed by `fetch_all_books` (`b.get(...)`
reads; `none`/`[]` model missing keys, matching the `.get` defaults). -/
structure RawBook where
  title : Option String
  subtitle : Option String
  authors : List PersonRef
  genres : List PersonRef
  page_count : Option Int
  isbn : Option String
  published_date : Option String
  imprint : Option String
  cover_image : Option String
  id : Option String
  started_reading_at : Option String
  finished_reading_at : Option String
deriving DecidableEq, Repr

/-- The empty object `{}`: every `.get` read comes back absent. -/
def emptyBook : RawBook :=
  ⟨none, none, [], [], none, none, none, none, none, none, none, none⟩

/-- A parsed timestamp (`datetime.datetime`).  `tzSeconds` is the UTC
offset in seconds for an aware value, `none` for a naive one. -/
structure PyDateTime where
  year : Nat
  month : Nat
  day : Nat
  hour : Nat
  minute : Nat
  second : Nat
  microsecond : Nat
  tzSeconds : Option Int
deriving DecidableEq, Repr

/-! ### `datetime.fromisoformat`, modelled on code points.

The definitions below model CPython's `datetime.fromisoformat` (the
pure-Python 3.10 reference implementation) on its documented grammar
`YYYY-MM-DD[*HH[:MM[:SS[.fff[fff]]]][+HH:MM[:SS]]]`: a strict 10-character
date validated against the calendar, an arbitrary separator character,
and an optional time with optional `±HH:MM[:SS]` offset (the fractional
offset form is outside the modelled fragment). -/

/-- Read exactly `n` ASCII digits, accumulating their value. -/
def takeDigits : Nat → Nat → List Char → Option (Nat × List Char)
  | 0, acc, s => some (acc, s)
  | _ + 1, _, [] => none
  | n + 1, acc, c :: s =>
    if c.isDigit then takeDigits n (acc * 10 + (c.toNat - 48)) s else none

/-- Gregorian leap year. -/
def isLeap (y : Nat) : Bool := y % 4 = 0 && (y % 100 ≠ 0 || y % 400 = 0)

/-- Days in a month (`datetime` calendar validation). -/
def daysInMonth (y m : Nat) : Nat :=
  if m = 2 then (if isLeap y then 29 else 28)
  else if m = 4 ∨ m = 6 ∨ m = 9 ∨ m = 11 then 30
  else 31

/-- Parse and validate the leading `YYYY-MM-DD`. -/
def parseDate (s : List Char) : Option (Nat × Nat × Nat × List Char) :=
  match takeDigits 4 0 s with
  | some (y, '-' :: r1) =>
    match takeDigits 2 0 r1 with
    | some (m, '-' :: r2) =>
      match takeDigits 2 0 r2 with
      | some (d, rest) =>
        if 1 ≤ y ∧ y ≤ 9999 ∧ 1 ≤ m ∧ m ≤ 12 ∧ 1 ≤ d ∧ d ≤ daysInMonth y m
        then some (y, m, d, rest)
        else none
      | _ => none
    | _ => none
  | _ => none

/-- Numeric value of a digit list. -/
def natOfDigits (s : List Char) : Nat :=
  s.foldl (fun acc c => acc * 10 + (c.toNat - 48)) 0

/-- Parse a whole `HH[:MM[:SS[.fff[fff]]]]` string into
hour/minute/second/microsecond. -/
def parseHMS (s : List Char) : Option (Nat × Nat × Nat × Nat) :=
  match takeDigits 2 0 s with
  | none => none
  | some (h, rest) =>
    match rest with
    | [] => some (h, 0, 0, 0)
    | ':' :: r2 =>
      match takeDigits 2 0 r2 with
      | none => none
      | some (mi, rest2) =>
        match rest2 with
        | [] => some (h, mi, 0, 0)
        | ':' :: r3 =>
          match takeDigits 2 0 r3 with
          | none => none
          | some (sec, rest3) =>
            match rest3 with
            | [] => some (h, mi, sec, 0)
            | '.' :: fr =>
              if fr.length = 3 ∧ fr.all Char.isDigit then
                some (h, mi, sec, 1000 * natOfDigits fr)
              else if fr.length = 6 ∧ fr.all Char.isDigit then
                some (h, mi, sec, natOfDigits fr)
              else none
            | _ => none
        | _ => none
    | _ => none

/-- Split a time string at the first `+` or `-` (the timezone marker). -/
def splitTz (s : List Char) : List Char × Option (Char × List Char) :=
  match s with
  | [] => ([], none)
  | c :: rest =>
    if c = '+' ∨ c = '-' then ([], some (c, rest))
    else
      let r := splitTz rest
      (c :: r.1, r.2)

/-- Parse a `HH:MM` or `HH:MM:SS` timezone body into offset seconds. -/
def parseTzOffset (s : List Char) : Option Nat :=
  if s.length = 5 ∨ s.length = 8 then
    match parseHMS s with
    | some (h, mi, sec, _) => some (h * 3600 + mi * 60 + sec)
    | none => none
  else none

/-- Parse the time (and optional offset) following the separator, with
`datetime`'s range validation (`timezone` requires `|offset| < 24h`). -/
def parseTimeAndTz (y m d : Nat) (t : List Char) : Option PyDateTime :=
  let st := splitTz t
  match parseHMS st.1 with
  | none => none
  | some (h, mi, sec, micro) =>
    if h ≤ 23 ∧ mi ≤ 59 ∧ sec ≤ 59 then
      match st.2 with
      | none => some ⟨y, m, d, h, mi, sec, micro, none⟩
      | some (sign, tzs) =>
        match parseTzOffset tzs with
        | none => none
        | some offSecs =>
          if offSecs < 86400 then
            some ⟨y, m, d, h, mi, sec, micro,
                  some (if sign = '-' then -(offSecs : Int) else (offSecs : Int))⟩
          else none
    else none

/-- `datetime.fromisoformat` on a code-point list: strict date, then
optionally one separator character followed by a non-empty time part. -/
def fromisoformat (s : List Char) : Option PyDateTime :=
  match parseDate s with
  | none => none
  | some (y, m, d, []) => some ⟨y, m, d, 0, 0, 0, 0, none⟩
  | some (y, m, d, _sep :: t) => if t = [] then none else parseTimeAndTz y m d t

/-- Python `s.replace("Z", "+00:00")`: `str.replace` substitutes every
occurrence, which for a one-character pattern is a per-character
expansion. -/
def replaceZ (s : List Char) : List Char :=
  s.flatMap (fun c => if c = 'Z' then ['+', '0', '0', ':', '0', '0'] else [c])

/-- The `finished_dt` computation of `src/app.py`: attempt the parse only
when `finished_reading_at` is truthy, and swallow any parse failure
(`except Exception: pass` leaves `finished_dt = None`). -/
def bestEffortFinished (finished_at : Option String) : Option PyDateTime :=
  match finished_at with
  | none => none
  | some s => if s = "" then none else fromisoformat (replaceZ s.data)

/-! ## Normalization (`src/app.py` lines 52-80) -/

/-- `KeyError`: the error raised by the unguarded subscript
`authors[0]["name"]` / `genres[0]["name"]` when the first entry lacks a
`name` key. -/
inductive NormErr where
  | keyError
deriving DecidableEq, Repr

/-- `authors[0]["name"] if authors else None`. -/
def firstName : List PersonRef → Except NormErr (Option String)
  | [] => .ok none
  | a :: _ =>
    match a.name with
    | some n => .ok (some n)
    | none => .error .keyError

/-- `genres[0]["name"] if genres else "Unknown"`. -/
def firstGenre : List PersonRef → Except NormErr String
  | [] => .ok "Unknown"
  | g :: _ =>
    match g.name with
    | some n => .ok n
    | none => .error .keyError

/-- The normalized row appended to `rows` for each raw book. -/
structure BookRow where
  title : Option String
  subtitle : Option String
  author : Option String
  genre : String
  pages : Option Int
  isbn : Option String
  published_date : Option String
  imprint : Option String
  cover_image : Option String
  book_url : Option String
  started_reading : Option String
  finished_reading : Option String
  finished_datetime : Option PyDateTime
deriving DecidableEq, Repr

/-- `f"https://fable.co/book/{b.get('id')}" if b.get("id") else None`:
the guard is Python truthiness, so a present-but-empty id also yields
`None`. -/
def bookUrlOf (i : Option String) : Option String :=
  match i with
  | some s => if s = "" then none else some ("https://fable.co/book/" ++ s)
  | none => none

/-- The loop body of the row-building loop in `fetch_all_books`: one raw
book becomes one row.  The only failure is the `KeyError` from a first
author/genre entry without a `name` key; the timestamp parse is wrapped
and cannot fail. -/
def normalizeBook (b : RawBook) : Except NormErr BookRow :=
  let finished_dt := bestEffortFinished b.finished_reading_at
  match firstName b.authors with
  | .error e => .error e
  | .ok author =>
  match firstGenre b.genres with
  | .error e => .error e
  | .ok genre =>
  .ok {
    title := b.title
    subtitle := b.subtitle
    author := author
    genre := genre
    pages := b.page_count
    isbn := b.isbn
    published_date := b.published_date
    imprint := b.imprint
    cover_image := b.cover_image
    book_url := bookUrlOf b.id
    started_reading := b.started_reading_at
    finished_reading := b.finished_reading_at
    finished_datetime := finished_dt }

/-! ## Paginated fetch (`src/app.py` lines 31-49) -/

/-- One item of a page's `results` array: `item.get("book", {})` reads the
optional `book` object, defaulting to `{}`. -/
structure PageItem where
  book : Option RawBook
deriving DecidableEq, Repr

/-- The JSON body of a page.  `results = none` models a missing key
(`data.get("results", [])` then yields `[]`); `next = none` models a
missing or `null` `next` field (`data.get("next")` yields `None` for
both). -/
structure ApiPage where
  results : Option (List PageItem)
  next : Option String
deriving DecidableEq, Repr

/-- An HTTP response: status code and parsed JSON body. -/
structure HttpResponse where
  status : Nat
  body : ApiPage
deriving DecidableEq, Repr

/-- Outcome of the fetch loop.  `httpError` models the `HTTPError` raised
by `resp.raise_for_status()` (for `400 ≤ status < 600`), carrying the
status; `outOfFuel` models non-termination of the unbounded `while url:`
loop. -/
inductive FetchResult (α : Type) where
  | ok (value : α)
  | httpError (status : Nat)
  | outOfFuel
deriving DecidableEq, Repr

/-- The fixed base URL from `src/app.py`. -/
def BASE_URL : String :=
  "https://api.fable.co/api/v2/users/0c031026-9f1f-4a02-889c-79d2bdb11781/book_lists/33f803be-3e8d-4ed6-bd19-79a330d2bb32/books"

/-- The `while url:` loop of `fetch_all_books`, accumulating raw books.
`url = none` (absent/`null` `next`) and `url = some ""` (falsy string)
end the loop; each page is fetched, checked with `raise_for_status`, its
`results` read with default `[]` (stopping when empty), its items'
`book` objects appended in order, and `next` followed. -/
def fetchRawLoop (api : String → HttpResponse) :
    Nat → List RawBook → Option String → FetchResult (List RawBook)
  | _, acc, none => .ok acc
  | fuel, acc, some url =>
    if url = "" then .ok acc
    else
      match fuel with
      | 0 => .outOfFuel
      | fuel' + 1 =>
        let resp := api url
        if 400 ≤ resp.status ∧ resp.status < 600 then .httpError resp.status
        else
          let results := resp.body.results.getD []
          if results = [] then .ok acc
          else
            fetchRawLoop api fuel'
              (acc ++ results.map (fun it => it.book.getD emptyBook))
              resp.body.next

/-- The accumulation phase of `fetch_all_books`, starting at `BASE_URL`. -/
def fetchRaw (api : String → HttpResponse) (fuel : Nat) : FetchResult (List RawBook) :=
  fetchRawLoop api fuel [] (some BASE_URL)

/-- Full outcome of `fetch_all_books`: rows, or a propagated exception. -/
inductive FetchOutcome where
  | ok (rows : List BookRow)
  | httpError (status : Nat)
  | keyError
  | outOfFuel
deriving DecidableEq, Repr

/-- `fetch_all_books`: drain the pages, then build one row per raw book
(in order).  An `HTTPError` or a `KeyError` escapes the function. -/
def fetch_all_books (api : String → HttpResponse) (fuel : Nat) : FetchOutcome :=
  match fetchRaw api fuel with
  | .ok books =>
    match books.mapM normalizeBook with
    | .ok rows => .ok rows
    | .error _ => .keyError
  | .httpError s => .httpError s
  | .outOfFuel => .outOfFuel

/-- Modelled from the spec: the `@st.cache_data` wrapper on
`fetch_all_books` (Streamlit is not part of `src/`).  Per the spec's
caching contract, a successful result is stored and reused, and a failed
fetch publishes nothing: the prior cache entry (if any) stays in effect. -/
def cachedFetch (api : String → HttpResponse) (fuel : Nat)
    (cache : Option (List BookRow)) : FetchOutcome × Option (List BookRow) :=
  match cache with
  | some rows => (.ok rows, some rows)
  | none =>
    match fetch_all_books api fuel with
    | .ok rows => (.ok rows, some rows)
    | e => (e, none)

/-! ## Search filter (`src/app.py` lines 150-156).

`filtered_df["title"].str.contains(search, case=False, na=False)` treats
the search text as a regular expression (`Series.str.contains` defaults to
`regex=True`) matched with `re.IGNORECASE`, and maps missing values to
`False`.  The matcher below models `re.search` for the fragment of
patterns whose only metacharacter is the dot wildcard (which matches any
character except a newline); case folding is modelled on ASCII.  Strings
are handled as lists of code points. -/

/-- ASCII lowercase folding of one code point (`re.IGNORECASE`). -/
def lowerCode (n : Nat) : Nat := if 65 ≤ n ∧ n ≤ 90 then n + 32 else n

/-- Code points of a string. -/
def codesOf (s : String) : List Nat := s.data.map (fun c => c.toNat)

/-- Match the pattern against a prefix of the text: a dot (code 46)
matches everything except a newline (code 10), any other code matches
itself. -/
def patMatchAt : List Nat → List Nat → Bool
  | [], _ => true
  | _ :: _, [] => false
  | p :: ps, c :: cs =>
    (if p = 46 then decide (c ≠ 10) else decide (p = c)) && patMatchAt ps cs

/-- `re.search(pat, s, re.IGNORECASE)` for the dot-and-literals fragment:
the (case-folded) pattern matches at some position of the (case-folded)
text. -/
def reSearchCI (pat s : String) : Bool :=
  ((codesOf s).map lowerCode).tails.any
    (patMatchAt ((codesOf pat).map lowerCode))

/-- The per-row disjunction of the two `str.contains` masks: missing
title/author count as non-matching (`na=False`). -/
def rowMatchesSearch (search : String) (r : BookRow) : Bool :=
  (match r.title with
   | some t => reSearchCI search t
   | none => false) ||
  (match r.author with
   | some a => reSearchCI search a
   | none => false)

/-- The `if search:` filtering step: a falsy (empty) search text leaves
the rows untouched, otherwise keep the rows matching on title or
author. -/
def searchFilter (search : String) (rows : List BookRow) : List BookRow :=
  if search = "" then rows else rows.filter (rowMatchesSearch search)

/-- Literal (metacharacter-free) match of a pattern against a prefix of
the text. -/
def litPrefixAt : List Nat → List Nat → Bool
  | [], _ => true
  | _ :: _, [] => false
  | p :: ps, c :: cs => decide (p = c) && litPrefixAt ps cs

/-- The spec's wording of the search step, for comparison: case-insensitive
literal substring containment (no regular-expression reading). -/
def specContainsCI (pat s : String) : Bool :=
  ((codesOf s).map lowerCode).tails.any
    (litPrefixAt ((codesOf pat).map lowerCode))

/-- The spec's per-row match: title or author contains the text as a
case-insensitive literal substring, missing fields non-matching. -/
def specRowMatches (search : String) (r : BookRow) : Bool :=
  (match r.title with
   | some t => specContainsCI search t
   | none => false) ||
  (match r.author with
   | some a => specContainsCI search a
   | none => false)

/-- The regex metacharacters of Python `re` (code points of
`. ^ $ * + ? { } [ ] \ | ( )`): outside the literal fragment. -/
def regexMetaCodes : List Nat :=
  [46, 94, 36, 42, 43, 63, 123, 125, 91, 93, 92, 124, 40, 41]

/-! ## Sorting (`src/app.py` lines 160-167).

`sort_values` ranks by one column; missing values go last
(`na_position="last"`, explicit in the `finished_reading` branch and the
default in the other branch).  The sort key defaults to `kind="quicksort"`,
which pandas documents as not stable, so the embedding is a relation: the
rows with a present key come first in some permutation that is pairwise
ordered by the column comparator (ties in implementation-defined order),
followed by the rows with a missing key in their original order (pandas'
`nargsort` extracts the missing positions by mask and appends them
unsorted). -/

/-- The four selectable sort keys. -/
inductive SortKey where
  | title
  | author
  | published_date
  | finished_reading
deriving DecidableEq, Repr

/-- Civil day number (Hinnant's algorithm, shifted epoch): monotone in
calendar order, valid for `y ≥ 1`. -/
def daysFromCivil (y m d : Nat) : Nat :=
  let y' := y - (if m ≤ 2 then 1 else 0)
  let era := y' / 400
  let yoe := y' % 400
  let mp := (m + 9) % 12
  let doy := (153 * mp + 2) / 5 + d - 1
  let doe := yoe * 365 + yoe / 4 - yoe / 100 + doy
  era * 146097 + doe

/-- Comparison key of a parsed timestamp: microseconds on the civil time
line, shifted to UTC by the offset of an aware value (CPython compares
aware datetimes by instant; a naive value is keyed at offset 0 — CPython
refuses naive-vs-aware comparison, which is outside the modelled
fragment). -/
def dtKey (d : PyDateTime) : Int :=
  ((daysFromCivil d.year d.month d.day * 86400 + d.hour * 3600 +
      d.minute * 60 + d.second : Nat) : Int) * 1000000 + (d.microsecond : Int)
    - (d.tzSeconds.getD 0) * 1000000

/-- The column value a row contributes under a sort key: the raw string
for `title`/`author`/`published_date`, the parsed `finished_datetime`
(as its comparison key) for `finished_reading`; `none` is a missing
value. -/
inductive ColVal where
  | s (v : String)
  | t (v : Int)
deriving DecidableEq, Repr

/-- Python string `<`: lexicographic comparison of code points. -/
def strLtb : List Nat → List Nat → Bool
  | [], [] => false
  | [], _ :: _ => true
  | _ :: _, [] => false
  | a :: as, b :: bs => if a < b then true else if b < a then false else strLtb as bs

/-- Python string `<=` (`s ≤ t ↔ ¬ t < s` for the total order). -/
def strLEb (s t : String) : Bool := !(strLtb (codesOf t) (codesOf s))

/-- Order on column values (a real column is homogeneous; the cross cases
are arbitrary). -/
def colLE : ColVal → ColVal → Bool
  | .s a, .s b => strLEb a b
  | .t a, .t b => a ≤ b
  | .s _, .t _ => true
  | .t _, .s _ => false

/-- Column extraction per sort key. -/
def colOf : SortKey → BookRow → Option ColVal
  | .title, r => r.title.map .s
  | .author, r => r.author.map .s
  | .published_date, r => r.published_date.map .s
  | .finished_reading, r => r.finished_datetime.map (fun d => .t (dtKey d))

/-- Pairwise comparator between (possibly missing) column values, under
the `ascending` flag; pairs involving a missing value are unconstrained
here (their placement is fixed separately). -/
def colLEb (asc : Bool) (a b : Option ColVal) : Bool :=
  match a, b with
  | some x, some y => if asc then colLE x y else colLE y x
  | _, _ => true

/-- `filtered_df.sort_values(by=<key column>, ascending=asc)` with
missing values last: `out` is some ordered permutation of the
present-key rows followed by the missing-key rows in input order. -/
def sortValuesRel (k : SortKey) (asc : Bool) (rows out : List BookRow) : Prop :=
  ∃ pres : List BookRow,
    (rows.filter (fun r => (colOf k r).isSome)).Perm pres ∧
    pres.Pairwise (fun x y => colLEb asc (colOf k x) (colOf k y) = true) ∧
    out = pres ++ rows.filter (fun r => !(colOf k r).isSome)

/-! ## Concrete inputs used by counterexamples and witnesses -/

/-- A mock API serving three pages of two records, chained by `next` and
ending with `next: null`. -/
def mockApi3 (i1 i2 i3 i4 i5 i6 : PageItem) : String → HttpResponse := fun url =>
  if url = BASE_URL then ⟨200, ⟨some [i1, i2], some "page2"⟩⟩
  else if url = "page2" then ⟨200, ⟨some [i3, i4], some "page3"⟩⟩
  else ⟨200, ⟨some [i5, i6], none⟩⟩

/-- A mock API whose first page succeeds and whose second page answers
HTTP 500. -/
def mockApiErr (i1 i2 : PageItem) : String → HttpResponse := fun url =>
  if url = BASE_URL then ⟨200, ⟨some [i1, i2], some "page2"⟩⟩
  else ⟨500, ⟨some [i1], some "page3"⟩⟩

/-- A raw record whose `authors` array is non-empty but whose first entry
has no `name` key. -/
def bBadAuthor : RawBook := { emptyBook with authors := [⟨none⟩] }

/-- A raw record whose first genre entry carries the empty string as its
name. -/
def bEmptyGenreName : RawBook := { emptyBook with genres := [⟨some ""⟩] }

/-- The row produced for `bEmptyGenreName`. -/
def rowEmptyGenre : BookRow :=
  ⟨none, none, none, "", none, none, none, none, none, none, none, none, none⟩

/-- A raw record whose `id` is present but empty (truthiness makes the
code skip the URL). -/
def bEmptyId : RawBook := { emptyBook with id := some "" }

/-- The row produced for `bEmptyId`. -/
def rowEmptyId : BookRow :=
  ⟨none, none, none, "Unknown", none, none, none, none, none, none, none, none, none⟩

/-- A mock API all of whose pages have no `results` key. -/
def mockApiEmpty : String → HttpResponse := fun _ => ⟨200, ⟨none, none⟩⟩

/-- A raw record with an unparseable finished timestamp. -/
def bGarbageTs : RawBook := { emptyBook with finished_reading_at := some "garbage" }

/-- A raw record finished at `2021-01-01T00:00:00Z`. -/
def bFinZ : RawBook := { emptyBook with finished_reading_at := some "2021-01-01T00:00:00Z" }

/-- The parsed value of `2021-01-01T00:00:00Z` after the `Z` rewrite. -/
def dtZ : PyDateTime := ⟨2021, 1, 1, 0, 0, 0, 0, some 0⟩

/-- The row produced for `bFinZ`. -/
def rowFinZ : BookRow :=
  ⟨none, none, none, "Unknown", none, none, none, none, none, none, none,
   some "2021-01-01T00:00:00Z", some dtZ⟩

/-- A raw record with a present, non-empty id. -/
def bWithId : RawBook := { emptyBook with id := some "abc123" }

/-- A row finished on 2021-01-01 (titled for telling rows apart). -/
def rowFin2021 : BookRow :=
  ⟨some "a2021", none, none, "Unknown", none, none, none, none, none, none, none,
   some "2021-01-01", some ⟨2021, 1, 1, 0, 0, 0, 0, none⟩⟩

/-- A row finished on 2020-06-01. -/
def rowFin2020 : BookRow :=
  ⟨some "b2020", none, none, "Unknown", none, none, none, none, none, none, none,
   some "2020-06-01", some ⟨2020, 6, 1, 0, 0, 0, 0, none⟩⟩

/-- A row with no finished timestamp. -/
def rowNoFinA : BookRow :=
  ⟨some "x", none, none, "Unknown", none, none, none, none, none, none, none, none, none⟩

/-- Another row with no finished timestamp. -/
def rowNoFinB : BookRow :=
  ⟨some "y", none, none, "Unknown", none, none, none, none, none, none, none, none, none⟩

/-- Two distinct rows carrying the same title (equal sort keys). -/
def rTieA : BookRow :=
  ⟨some "A", none, none, "Unknown", none, some "isbn-1", none, none, none, none, none, none, none⟩

/-- See `rTieA`. -/
def rTieB : BookRow :=
  ⟨some "A", none, none, "Unknown", none, some "isbn-2", none, none, none, none, none, none, none⟩

/-- The row produced for `bWithId`. -/
def rowWithId : BookRow :=
  ⟨none, none, none, "Unknown", none, none, none, none, none,
   some "https://fable.co/book/abc123", none, none, none⟩

/-- A row titled `"abc"` (for the search-filter claims). -/
def rowAbc : BookRow :=
  ⟨some "abc", none, none, "Unknown", none, none, none, none, none, none, none, none, none⟩

/-- The spec's filtering example: Dune by Herbert. -/
def rowDune : BookRow :=
  ⟨some "Dune", none, some "Herbert", "Unknown", none, none, none, none, none, none, none, none, none⟩

/-- The spec's filtering example: Emma by Austen. -/
def rowEmma : BookRow :=
  ⟨some "Emma", none, some "Austen", "Unknown", none, none, none, none, none, none, none, none, none⟩

/-! # Theorems -/

/-! ## C1: the genre color is deterministic and gray on falsy input -/

/-- The rejection loop of `_randbelow` returns a value below `n`. -/
theorem randbelowLoop_lt (n k : Nat) (hn : 0 < n) :
    ∀ (fuel : Nat) (st : MTState), (randbelowLoop n k fuel st).1 < n := by
  intro fuel
  induction fuel with
  | zero => intro st; simpa [randbelowLoop] using hn
  | succ m ih =>
    intro st
    rw [randbelowLoop]
    split
    · assumption
    · exact ih _

/-- C1: `color_from_genre` is deterministic — its result depends only on
the genre text, not on the incoming generator state (so two calls in the
same or different processes agree) — an empty or absent genre yields the
fixed gray `"#888888"`, and every other result is a 24-bit RGB color. -/
theorem C1_color_from_genre_deterministic :
    (∀ (g : Option String) (st1 st2 : MTState),
        (color_from_genre g st1).1 = (color_from_genre g st2).1) ∧
    (∀ st : MTState, (color_from_genre none st).1 = "#888888" ∧
        (color_from_genre (some "") st).1 = "#888888") ∧
    (∀ (g : Option String) (st : MTState),
        (∃ v, v < 16777216 ∧ (color_from_genre g st).1 = hexColor v) ∨
        (color_from_genre g st).1 = "#888888") := by
  refine ⟨?_, ?_, ?_⟩
  · intro g st1 st2
    match g with
    | none => rfl
    | some s =>
      by_cases h : s = "" <;> simp [color_from_genre, h]
  · intro st
    exact ⟨rfl, rfl⟩
  · intro g st
    match g with
    | none => exact Or.inr rfl
    | some s =>
      by_cases h : s = ""
      · exact Or.inr (by simp [color_from_genre, h])
      · refine Or.inl ⟨(randint24 (seedMT (sha1 (utf8Bytes s)))).1, ?_, ?_⟩
        · exact randbelowLoop_lt _ _ (by norm_num) _ _
        · simp [color_from_genre, h, randint24]

/-! ## C2: pagination walks the `next` chain and accumulates in order -/

/-- C2: the fetch loop stops when `next` is absent/null and when a page's
`results` array is absent or empty, and on a mock API of three pages of
two records chained by `next` (the last with `next: null`) it returns
exactly the six records in page-then-in-page order. -/
theorem C2_fetch_paginates_in_order :
    (∀ (api : String → HttpResponse) (fuel : Nat) (acc : List RawBook),
        fetchRawLoop api fuel acc none = .ok acc) ∧
    (∀ (api : String → HttpResponse) (fuel : Nat) (acc : List RawBook) (u : String),
        u ≠ "" → (api u).status < 400 →
        ((api u).body.results = none ∨ (api u).body.results = some []) →
        fetchRawLoop api (fuel + 1) acc (some u) = .ok acc) ∧
    (∀ i1 i2 i3 i4 i5 i6 : PageItem,
        fetchRaw (mockApi3 i1 i2 i3 i4 i5 i6) 3 =
          .ok (([i1, i2, i3, i4, i5, i6]).map (fun it => it.book.getD emptyBook))) := by
  refine ⟨?_, ?_, ?_⟩
  · intro api fuel acc
    rw [fetchRawLoop]
  · intro api fuel acc u hu hst hres
    rw [fetchRawLoop]
    have hcond : ¬(400 ≤ (api u).status ∧ (api u).status < 600) := by omega
    rcases hres with h | h <;> simp [hu, hcond, h]
  · intro i1 i2 i3 i4 i5 i6
    have h1 : ¬(BASE_URL = "") := by decide
    have h2 : ¬(("page2" : String) = "") := by decide
    have h3 : ¬(("page3" : String) = "") := by decide
    have h4 : ¬(("page2" : String) = BASE_URL) := by decide
    have h5 : ¬(("page3" : String) = BASE_URL) := by decide
    have h6 : ¬(("page3" : String) = "page2") := by decide
    simp [fetchRaw, fetchRawLoop, mockApi3, h1, h2, h3, h4, h5, h6]

/-- Witness for C2 at concrete inputs: a spent `next` and an
absent-`results` page both end the loop with the accumulator. -/
theorem C2_fetch_paginates_in_order_witness :
    fetchRawLoop mockApiEmpty 7 [] none = .ok [] ∧
    fetchRawLoop mockApiEmpty (0 + 1) [] (some "u") = .ok [] :=
  ⟨C2_fetch_paginates_in_order.1 mockApiEmpty 7 [],
   C2_fetch_paginates_in_order.2.1 mockApiEmpty 0 [] "u" (by decide) (by decide)
     (Or.inl rfl)⟩

/-! ## C3: a non-success page fails the whole fetch, nothing partial -/

/-- C3: when page two answers HTTP 500 after a successful page one,
`fetch_all_books` fails with the carried status for every sufficient
fuel; no partial row list is returned, and the (spec-modelled) cache is
left unpopulated. -/
theorem C3_http_error_fails_whole_fetch :
    ∀ (i1 i2 : PageItem) (f : Nat),
      fetch_all_books (mockApiErr i1 i2) (f + 2) = .httpError 500 ∧
      cachedFetch (mockApiErr i1 i2) (f + 2) none = (.httpError 500, none) := by
  intro i1 i2 f
  have h1 : ¬(BASE_URL = "") := by decide
  have h2 : ¬(("page2" : String) = "") := by decide
  have h4 : ¬(("page2" : String) = BASE_URL) := by decide
  have hmock : fetch_all_books (mockApiErr i1 i2) (f + 2) = .httpError 500 := by
    simp [fetch_all_books, fetchRaw, fetchRawLoop, mockApiErr, h1, h2, h4]
  exact ⟨hmock, by simp [cachedFetch, hmock]⟩

/-! ## Shape of a successful normalization -/

/-- A successful `normalizeBook` run copies the raw fields, resolves the
first author/genre names, derives the URL from the id, and attaches the
best-effort timestamp. -/
theorem normalizeBook_ok_shape (b : RawBook) (row : BookRow)
    (h : normalizeBook b = .ok row) :
    ∃ author genre,
      firstName b.authors = .ok author ∧
      firstGenre b.genres = .ok genre ∧
      row = { title := b.title
              subtitle := b.subtitle
              author := author
              genre := genre
              pages := b.page_count
              isbn := b.isbn
              published_date := b.published_date
              imprint := b.imprint
              cover_image := b.cover_image
              book_url := bookUrlOf b.id
              started_reading := b.started_reading_at
              finished_reading := b.finished_reading_at
              finished_datetime := bestEffortFinished b.finished_reading_at } := by
  unfold normalizeBook at h
  cases hfa : firstName b.authors with
  | error e => rw [hfa] at h; exact absurd h (by simp)
  | ok author =>
    rw [hfa] at h
    cases hga : firstGenre b.genres with
    | error e => rw [hga] at h; exact absurd h (by simp)
    | ok genre =>
      rw [hga] at h
      exact ⟨author, genre, rfl, rfl, (Except.ok.inj h).symm⟩

/-! ## C4: totality of normalization -/

/-- C4 counterexample: normalization is not total on raw records — a
non-empty `authors` array whose first entry lacks a `name` key raises
`KeyError` (`authors[0]["name"]`), so `normalizeBook` fails on
`bBadAuthor`. -/
theorem C4_normalize_total_counterexample :
    ¬(∀ b : RawBook, ∃ row, normalizeBook b = Except.ok row) := by
  intro h
  obtain ⟨row, hrow⟩ := h bBadAuthor
  have : normalizeBook bBadAuthor = .error .keyError := rfl
  rw [this] at hrow
  exact Except.noConfusion hrow

/-- C4 (amended): normalization never fails provided the first author
entry and the first genre entry, when present, carry a `name` key; all
other missing or malformed fields (absent authors, genres, id, page
count, timestamps, unparseable timestamps) degrade to absent or defaulted
values instead of failing. -/
theorem C4_normalize_total_amended :
    ∀ b : RawBook,
      (∀ a, b.authors.head? = some a → a.name ≠ none) →
      (∀ g, b.genres.head? = some g → g.name ≠ none) →
      ∃ row, normalizeBook b = Except.ok row := by
  intro b ha hg
  obtain ⟨author, hfa⟩ : ∃ v, firstName b.authors = .ok v := by
    cases hAu : b.authors with
    | nil => exact ⟨none, rfl⟩
    | cons a as =>
      have hname := ha a (by rw [hAu]; rfl)
      cases han : a.name with
      | none => exact absurd han hname
      | some n => exact ⟨some n, by simp [firstName, han]⟩
  obtain ⟨genre, hga⟩ : ∃ v, firstGenre b.genres = .ok v := by
    cases hGe : b.genres with
    | nil => exact ⟨"Unknown", rfl⟩
    | cons g gs =>
      have hname := hg g (by rw [hGe]; rfl)
      cases hgn : g.name with
      | none => exact absurd hgn hname
      | some n => exact ⟨n, by simp [firstGenre, hgn]⟩
  refine ⟨{ title := b.title
            subtitle := b.subtitle
            author := author
            genre := genre
            pages := b.page_count
            isbn := b.isbn
            published_date := b.published_date
            imprint := b.imprint
            cover_image := b.cover_image
            book_url := bookUrlOf b.id
            started_reading := b.started_reading_at
            finished_reading := b.finished_reading_at
            finished_datetime := bestEffortFinished b.finished_reading_at }, ?_⟩
  unfold normalizeBook
  rw [hfa, hga]

/-- Witness for C4 (amended) at concrete records: the empty object and a
record whose only field is an unparseable timestamp both normalize
successfully. -/
theorem C4_normalize_total_witness :
    (∃ row, normalizeBook emptyBook = Except.ok row) ∧
    (∃ row, normalizeBook bGarbageTs = Except.ok row) :=
  ⟨C4_normalize_total_amended emptyBook (fun _ h => nomatch h) (fun _ h => nomatch h),
   C4_normalize_total_amended bGarbageTs (fun _ h => nomatch h) (fun _ h => nomatch h)⟩

/-! ## C5: defaulting of author and genre -/

/-- C5 counterexample: `genre` can be empty on a normalized row — a first
genre entry named `""` is copied verbatim, so "genre is never absent or
empty" fails. -/
theorem C5_genre_default_counterexample :
    ¬(∀ (b : RawBook) (row : BookRow), normalizeBook b = Except.ok row →
        row.genre ≠ "") :=
  fun h => h bEmptyGenreName rowEmptyGenre rfl rfl

/-- C5 (amended): empty `authors` yields an absent author, empty `genres`
yields the literal `"Unknown"`, and `genre` is never absent — it is
`"Unknown"` or the first genre's name verbatim, hence non-empty whenever
that name is non-empty (but empty if the source name is the empty
string). -/
theorem C5_genre_default_amended :
    ∀ (b : RawBook) (row : BookRow), normalizeBook b = Except.ok row →
      (b.authors = [] → row.author = none) ∧
      (b.genres = [] → row.genre = "Unknown") ∧
      (row.genre = "Unknown" ∨ ∃ g, b.genres.head? = some g ∧ g.name = some row.genre) ∧
      ((∀ g, b.genres.head? = some g → ∀ n, g.name = some n → n ≠ "") →
        row.genre ≠ "") := by
  intro b row h
  obtain ⟨author, genre, hfa, hga, hrow⟩ := normalizeBook_ok_shape b row h
  subst hrow
  have hgenre : (b.genres = [] ∧ genre = "Unknown") ∨
      (∃ g gs, b.genres = g :: gs ∧ g.name = some genre) := by
    cases hGe : b.genres with
    | nil =>
      rw [hGe] at hga
      exact Or.inl ⟨rfl, (Except.ok.inj hga).symm⟩
    | cons g gs =>
      rw [hGe] at hga
      cases hgn : g.name with
      | none =>
        simp only [firstGenre, hgn] at hga
        exact Except.noConfusion hga
      | some n =>
        simp only [firstGenre, hgn] at hga
        exact Or.inr ⟨g, gs, rfl, by rw [hgn, Except.ok.inj hga]⟩
  refine ⟨?_, ?_, ?_, ?_⟩
  · intro hAu
    rw [hAu] at hfa
    exact (Except.ok.inj hfa).symm
  · intro hGe
    rw [hGe] at hga
    exact (Except.ok.inj hga).symm
  · rcases hgenre with ⟨_, hu⟩ | ⟨g, gs, hGe, hgn⟩
    · exact Or.inl hu
    · exact Or.inr ⟨g, by rw [hGe]; rfl, hgn⟩
  · intro hne
    show genre ≠ ""
    rcases hgenre with ⟨_, hu⟩ | ⟨g, gs, hGe, hgn⟩
    · rw [hu]; decide
    · exact hne g (by rw [hGe]; rfl) genre hgn

/-- Witness for C5 (amended) at the empty record. -/
theorem C5_genre_default_witness :
    (emptyBook.authors = [] → rowEmptyId.author = none) ∧
    (emptyBook.genres = [] → rowEmptyId.genre = "Unknown") ∧
    (rowEmptyId.genre = "Unknown" ∨
      ∃ g, emptyBook.genres.head? = some g ∧ g.name = some rowEmptyId.genre) ∧
    ((∀ g, emptyBook.genres.head? = some g → ∀ n, g.name = some n → n ≠ "") →
      rowEmptyId.genre ≠ "") :=
  C5_genre_default_amended emptyBook rowEmptyId rfl

/-! ## C6: best-effort timestamp parsing -/

/-- Nothing parses from the empty string. -/
theorem fromisoformat_nil : fromisoformat [] = none := rfl

/-- C6: `finished_datetime` is exactly the best-effort parse of
`finished_reading` (with every `Z` rewritten to `+00:00`, which on a
string whose only `Z` is trailing is precisely the trailing-`Z`-as-UTC
reading); it is absent iff `finished_reading` is absent or unparseable;
and changing the timestamp — in particular a parse failure — never
changes whether the row normalizes. -/
theorem C6_finished_datetime_parse :
    (∀ (b : RawBook) (row : BookRow), normalizeBook b = Except.ok row →
        row.finished_datetime = bestEffortFinished b.finished_reading_at) ∧
    (∀ (b : RawBook) (row : BookRow), normalizeBook b = Except.ok row →
        (row.finished_datetime = none ↔
          (b.finished_reading_at = none ∨
           ∀ s, b.finished_reading_at = some s →
             fromisoformat (replaceZ s.data) = none))) ∧
    (∀ (b : RawBook) (s : String) (d : PyDateTime) (row : BookRow),
        normalizeBook b = Except.ok row → b.finished_reading_at = some s →
        fromisoformat (replaceZ s.data) = some d →
        row.finished_datetime = some d) ∧
    (∀ (b : RawBook) (fin : Option String),
        ((∃ r, normalizeBook { b with finished_reading_at := fin } = Except.ok r) ↔
         (∃ r, normalizeBook b = Except.ok r))) ∧
    (∀ s : List Char, (∀ c ∈ s, c ≠ 'Z') →
        replaceZ (s ++ ['Z']) = s ++ ['+', '0', '0', ':', '0', '0']) := by
  have hshape : ∀ (b : RawBook) (row : BookRow), normalizeBook b = Except.ok row →
      row.finished_datetime = bestEffortFinished b.finished_reading_at := by
    intro b row h
    obtain ⟨author, genre, _, _, hrow⟩ := normalizeBook_ok_shape b row h
    rw [hrow]
  refine ⟨hshape, ?_, ?_, ?_, ?_⟩
  · intro b row h
    rw [hshape b row h]
    cases hfin : b.finished_reading_at with
    | none => simp [bestEffortFinished]
    | some s =>
      by_cases hs : s = ""
      · subst hs
        simp [bestEffortFinished]
        rfl
      · simp only [bestEffortFinished, if_neg hs]
        constructor
        · intro hnone
          refine Or.inr ?_
          intro s' hs'
          rw [← Option.some.inj hs']
          exact hnone
        · rintro (hn | hall)
          · exact Option.noConfusion hn
          · exact hall s rfl
  · intro b s d row h hfin hparse
    rw [hshape b row h, hfin]
    simp only [bestEffortFinished]
    have hs : s ≠ "" := by
      intro hs
      rw [hs] at hparse
      exact Option.noConfusion (fromisoformat_nil ▸ hparse)
    rw [if_neg hs]
    exact hparse
  · intro b fin
    have hA : ({ b with finished_reading_at := fin } : RawBook).authors = b.authors := rfl
    have hG : ({ b with finished_reading_at := fin } : RawBook).genres = b.genres := rfl
    unfold normalizeBook
    rw [hA, hG]
    cases firstName b.authors with
    | error e => simp
    | ok author =>
      cases firstGenre b.genres with
      | error e => simp
      | ok genre => simp
  · intro s hz
    induction s with
    | nil => rfl
    | cons c cs ih =>
      have hc : c ≠ 'Z' := hz c (by simp)
      have ihs : replaceZ (cs ++ ['Z']) = cs ++ ['+', '0', '0', ':', '0', '0'] :=
        ih (fun x hx => hz x (by simp [hx]))
      simp [replaceZ, hc] at ihs ⊢
      exact ihs

/-- Witness for C6 at a concrete record finished at
`2021-01-01T00:00:00Z`: the parsed value is attached, and the rewrite of
the trailing `Z`. -/
theorem C6_finished_datetime_parse_witness :
    rowFinZ.finished_datetime = some dtZ ∧
    replaceZ ("2021-01-01T00:00:00".data ++ ['Z']) =
      "2021-01-01T00:00:00".data ++ ['+', '0', '0', ':', '0', '0'] :=
  ⟨C6_finished_datetime_parse.2.2.1 bFinZ "2021-01-01T00:00:00Z" dtZ rowFinZ
      rfl rfl rfl,
   C6_finished_datetime_parse.2.2.2.2 "2021-01-01T00:00:00".data (by decide)⟩

/-! ## C7: derivation of book_url -/

/-- C7 counterexample: `book_url` presence is not equivalent to id
presence — the guard is Python truthiness, so the record with the
present-but-empty id `""` gets no URL. -/
theorem C7_book_url_counterexample :
    ¬(∀ (b : RawBook) (row : BookRow), normalizeBook b = Except.ok row →
        (row.book_url ≠ none ↔ b.id ≠ none)) := by
  intro h
  have h2 := (h bEmptyId rowEmptyId rfl).mpr (by decide)
  exact h2 rfl

/-- C7 (amended): `book_url` is present iff the identifier is present
and non-empty (truthy), in which case it is the fixed base path plus the
identifier; an absent — or empty — identifier yields an absent URL. -/
theorem C7_book_url_amended :
    ∀ (b : RawBook) (row : BookRow), normalizeBook b = Except.ok row →
      (row.book_url ≠ none ↔ ∃ i, b.id = some i ∧ i ≠ "") ∧
      (∀ i, b.id = some i → i ≠ "" →
        row.book_url = some ("https://fable.co/book/" ++ i)) ∧
      (b.id = none → row.book_url = none) ∧
      (b.id = some "" → row.book_url = none) := by
  intro b row h
  obtain ⟨author, genre, _, _, hrow⟩ := normalizeBook_ok_shape b row h
  have hurl : row.book_url = bookUrlOf b.id := by rw [hrow]
  refine ⟨?_, ?_, ?_, ?_⟩
  · rw [hurl]
    cases hid : b.id with
    | none => simp [bookUrlOf]
    | some i =>
      by_cases hi : i = ""
      · subst hi
        simp [bookUrlOf]
      · simp [bookUrlOf, hi]
  · intro i hid hi
    rw [hurl, hid, bookUrlOf, if_neg hi]
  · intro hid
    rw [hurl, hid, bookUrlOf]
  · intro hid
    rw [hurl, hid, bookUrlOf]
    rfl

/-- Witness for C7 (amended) at a record with id `"abc123"`. -/
theorem C7_book_url_witness :
    rowWithId.book_url = some ("https://fable.co/book/" ++ "abc123") :=
  (C7_book_url_amended bWithId rowWithId rfl).2.1 "abc123" rfl (by decide)

/-! ## C8: sorting by finished_reading uses the parsed value, missing last -/

/-- Rows in the ordered block carry a present key. -/
theorem mem_pres_isSome {k : SortKey} {rows pres : List BookRow}
    (hperm : (rows.filter (fun r => (colOf k r).isSome)).Perm pres)
    {x : BookRow} (hx : x ∈ pres) : (colOf k x).isSome = true := by
  have h1 := List.of_mem_filter (hperm.symm.subset hx)
  simpa using h1

/-- C8: every output admitted for a sort by `finished_reading` (either
direction) places all rows with an absent `finished_datetime` after every
row with a present one, and orders the present rows by the parsed value
(`dtKey`), not by the raw string. -/
theorem C8_finished_sort_missing_last :
    ∀ (rows out : List BookRow) (asc : Bool),
      sortValuesRel .finished_reading asc rows out →
      out.Pairwise (fun x y =>
        x.finished_datetime = none → y.finished_datetime = none) ∧
      out.Pairwise (fun x y => ∀ dx dy,
        x.finished_datetime = some dx → y.finished_datetime = some dy →
        (if asc then dtKey dx ≤ dtKey dy else dtKey dy ≤ dtKey dx)) := by
  intro rows out asc hrel
  obtain ⟨pres, hperm, hsorted, hout⟩ := hrel
  have hpres_some : ∀ x ∈ pres, x.finished_datetime ≠ none := by
    intro x hx hnone
    have := mem_pres_isSome hperm hx
    rw [colOf, hnone] at this
    exact Bool.noConfusion this
  have hsfx_none : ∀ y ∈ rows.filter (fun r => !(colOf .finished_reading r).isSome),
      y.finished_datetime = none := by
    intro y hy
    have := List.of_mem_filter hy
    cases hfd : y.finished_datetime with
    | none => rfl
    | some d => rw [colOf, hfd] at this; exact Bool.noConfusion this
  subst hout
  constructor
  · rw [List.pairwise_append]
    refine ⟨?_, ?_, ?_⟩
    · exact List.pairwise_of_forall_mem_list
        (fun a ha b _ hnone => absurd hnone (hpres_some a ha))
    · exact List.pairwise_of_forall_mem_list
        (fun a _ b hb _ => hsfx_none b hb)
    · exact fun a _ b hb _ => hsfx_none b hb
  · rw [List.pairwise_append]
    refine ⟨?_, ?_, ?_⟩
    · refine hsorted.imp ?_
      intro a b hab dx dy hdx hdy
      rw [colOf, colOf, hdx, hdy] at hab
      cases asc with
      | true =>
        have h2 : colLE (.t (dtKey dx)) (.t (dtKey dy)) = true := by
          simpa [colLEb] using hab
        simpa using of_decide_eq_true h2
      | false =>
        have h2 : colLE (.t (dtKey dy)) (.t (dtKey dx)) = true := by
          simpa [colLEb] using hab
        simpa using of_decide_eq_true h2
    · refine List.pairwise_of_forall_mem_list ?_
      intro a ha b _ dx dy hdx _
      rw [hsfx_none a ha] at hdx
      exact Option.noConfusion hdx
    · intro a _ b hb dx dy _ hdy
      rw [hsfx_none b hb] at hdy
      exact Option.noConfusion hdy

/-- Witness for C8 on the spec's shaped example: dated rows first in
chronological order, the undated row last. -/
theorem C8_finished_sort_missing_last_witness :
    List.Pairwise (fun x y =>
        x.finished_datetime = none → y.finished_datetime = none)
      [rowFin2020, rowFin2021, rowNoFinA] ∧
    List.Pairwise (fun x y => ∀ dx dy,
        x.finished_datetime = some dx → y.finished_datetime = some dy →
        (if true then dtKey dx ≤ dtKey dy else dtKey dy ≤ dtKey dx))
      [rowFin2020, rowFin2021, rowNoFinA] :=
  C8_finished_sort_missing_last [rowNoFinA, rowFin2020, rowFin2021]
    [rowFin2020, rowFin2021, rowNoFinA] true
    ⟨[rowFin2020, rowFin2021], by decide, by decide, by decide⟩

/-! ## C9: stability of the sort -/

/-- C9 counterexample: the sort is not guaranteed stable.  `sort_values`
is called with the default `kind="quicksort"`, which pandas documents as
not stable, so the admitted outputs include one that reverses two
equal-keyed rows: for two distinct rows sharing the title `"A"`, the
reversed output satisfies the sort contract while breaking the
original relative order. -/
theorem C9_stable_sort_counterexample :
    ¬(∀ (k : SortKey) (asc : Bool) (rows out : List BookRow),
        sortValuesRel k asc rows out →
        ∀ a b, a ∈ rows → b ∈ rows → a ≠ b → colOf k a = colOf k b →
          rows.indexOf a < rows.indexOf b → out.indexOf a < out.indexOf b) := by
  intro h
  have hrel : sortValuesRel .title true [rTieA, rTieB] [rTieB, rTieA] :=
    ⟨[rTieB, rTieA], by decide, by decide, by decide⟩
  have := h .title true [rTieA, rTieB] [rTieB, rTieA] hrel rTieA rTieB
    (by decide) (by decide) (by decide) (by decide) (by decide)
  exact absurd this (by decide)

/-- C9 (amended): every admitted output is a permutation of the input
that is pairwise ordered by the chosen key (missing values
unconstrained by the comparator); the missing-key rows form the suffix of
the output in their original input order (so ties among missing-key rows
are stable), while ties among present-key rows may come back in any
order — the default quicksort gives no stability guarantee. -/
theorem C9_sort_permutation_amended :
    ∀ (k : SortKey) (asc : Bool) (rows out : List BookRow),
      sortValuesRel k asc rows out →
      out.Perm rows ∧
      out = (out.filter fun r => (colOf k r).isSome) ++
            (rows.filter fun r => !(colOf k r).isSome) ∧
      (out.filter fun r => (colOf k r).isSome).Pairwise
        (fun x y => colLEb asc (colOf k x) (colOf k y) = true) := by
  intro k asc rows out hrel
  obtain ⟨pres, hperm, hsorted, hout⟩ := hrel
  have hpres_filter : pres.filter (fun r => (colOf k r).isSome) = pres :=
    List.filter_eq_self.mpr (fun a ha => mem_pres_isSome hperm ha)
  have hsfx_filter :
      (rows.filter fun r => !(colOf k r).isSome).filter
        (fun r => (colOf k r).isSome) = [] := by
    rw [List.filter_filter]
    apply List.filter_eq_nil_iff.mpr
    intro a _
    cases h : (colOf k a).isSome <;> simp [h]
  have hfilter_out : out.filter (fun r => (colOf k r).isSome) = pres := by
    rw [hout, List.filter_append, hpres_filter, hsfx_filter, List.append_nil]
  refine ⟨?_, ?_, ?_⟩
  · rw [hout]
    exact ((hperm.symm.append_right _).trans
      (List.filter_append_perm _ rows))
  · rw [hfilter_out, hout]
  · rw [hfilter_out]
    exact hsorted

/-- Witness for C9 (amended): a concrete descending sort by
`finished_reading` with two undated rows kept in input order at the
end. -/
theorem C9_sort_permutation_amended_witness :
    ([rowFin2021, rowNoFinA, rowNoFinB].Perm
        [rowNoFinA, rowFin2021, rowNoFinB]) ∧
    ([rowFin2021, rowNoFinA, rowNoFinB] =
      ([rowFin2021, rowNoFinA, rowNoFinB].filter
          fun r => (colOf .finished_reading r).isSome) ++
        ([rowNoFinA, rowFin2021, rowNoFinB].filter
          fun r => !(colOf .finished_reading r).isSome)) ∧
    (([rowFin2021, rowNoFinA, rowNoFinB].filter
        fun r => (colOf .finished_reading r).isSome).Pairwise
      (fun x y => colLEb false (colOf .finished_reading x)
        (colOf .finished_reading y) = true)) :=
  C9_sort_permutation_amended .finished_reading false
    [rowNoFinA, rowFin2021, rowNoFinB] [rowFin2021, rowNoFinA, rowNoFinB]
    ⟨[rowFin2021], by decide, by decide, by decide⟩

/-! ## C10: the search filter -/

/-- ASCII case folding cannot produce a dot. -/
theorem lowerCode_eq46 (c : Nat) : lowerCode c = 46 → c = 46 := by
  unfold lowerCode
  split <;> omega

/-- On dot-free patterns the regex matcher degenerates to the literal
prefix matcher. -/
theorem patMatchAt_eq_lit (p : List Nat) (h : 46 ∉ p) :
    patMatchAt p = litPrefixAt p := by
  funext t
  induction p generalizing t with
  | nil => rfl
  | cons a ps ih =>
    have ha : a ≠ 46 := fun hc => h (hc ▸ List.mem_cons_self a ps)
    have hps : 46 ∉ ps := fun hc => h (List.mem_cons_of_mem a hc)
    cases t with
    | nil => rfl
    | cons c cs =>
      show ((if a = 46 then decide (c ≠ 10) else decide (a = c)) && patMatchAt ps cs) =
        (decide (a = c) && litPrefixAt ps cs)
      rw [if_neg ha, ih hps]

/-- A metacharacter-free search text is matched literally. -/
theorem reSearchCI_eq_specContains (pat s : String)
    (h : ∀ c ∈ codesOf pat, c ∉ regexMetaCodes) :
    reSearchCI pat s = specContainsCI pat s := by
  unfold reSearchCI specContainsCI
  have h46 : 46 ∉ (codesOf pat).map lowerCode := by
    intro hmem
    obtain ⟨c, hc, hlc⟩ := List.mem_map.mp hmem
    have hc46 : c = 46 := lowerCode_eq46 c hlc
    subst hc46
    exact absurd (by decide : (46 : Nat) ∈ regexMetaCodes) (h _ hc)
  rw [patMatchAt_eq_lit _ h46]

/-- Per-row agreement of the code's matcher and the spec's matcher on
metacharacter-free search text. -/
theorem rowMatches_eq_spec (search : String) (r : BookRow)
    (h : ∀ c ∈ codesOf search, c ∉ regexMetaCodes) :
    rowMatchesSearch search r = specRowMatches search r := by
  unfold rowMatchesSearch specRowMatches
  cases r.title <;> cases r.author <;>
    simp [reSearchCI_eq_specContains _ _ h]

/-- C10 counterexample: the search text is interpreted as a regular
expression, not a literal substring — `"a.c"` keeps the row titled
`"abc"` although `"abc"` does not contain `"a.c"` literally. -/
theorem C10_search_substring_counterexample :
    ¬(∀ (search : String) (rows : List BookRow), search ≠ "" →
        searchFilter search rows = rows.filter (specRowMatches search)) := by
  intro h
  have := h "a.c" [rowAbc] (by decide)
  exact absurd this (by decide)

/-- C10 (amended): for a non-empty search text free of regex
metacharacters, the filter keeps exactly the rows whose title or author
contains the text as a case-insensitive substring, a missing field
counting as non-matching on that side only; in general the text is read
as a regular expression (`str.contains` defaults to `regex=True`). -/
theorem C10_search_filter_amended :
    ∀ (search : String) (rows : List BookRow), search ≠ "" →
      (∀ c ∈ codesOf search, c ∉ regexMetaCodes) →
      searchFilter search rows = rows.filter (specRowMatches search) := by
  intro search rows hne h
  rw [searchFilter, if_neg hne]
  exact List.filter_congr (fun r _ => rowMatches_eq_spec search r h)

/-- Witness for C10 (amended) on the spec's example: searching `"du"`
keeps exactly the Dune row. -/
theorem C10_search_filter_witness :
    searchFilter "du" [rowDune, rowEmma] =
      [rowDune, rowEmma].filter (specRowMatches "du") ∧
    searchFilter "du" [rowDune, rowEmma] = [rowDune] :=
  ⟨C10_search_filter_amended "du" [rowDune, rowEmma] (by decide) (by decide),
   by decide⟩
